import Mathlib

/-!
Verification of the tiny Whitted-style ray tracer (spheres + checkerboard
plane, recursive reflection/refraction shading, tone-mapped PPM output).

The C++ floats are modelled by exact rationals `ℚ`.  The floating-point
square root (and `pow` for the Phong specular exponent) have no exact
rational counterpart, so every definition that needs them receives an
explicit oracle function `sq : ℚ → ℚ` (resp. `rp : ℚ → ℚ → ℚ`); theorems
that depend on actual square-root behaviour take the defining properties
of `sq` on the relevant values as hypotheses, and witnesses instantiate
`sq` with a function that is exact on the (perfect-square) inputs that
occur.
-/

namespace RT

/-- Three-component vector (geometry.h `vec3`, fields x, y, z). -/
structure Vec3 where
  x : ℚ
  y : ℚ
  z : ℚ
deriving DecidableEq, Repr

/-- Four-component vector (geometry.h `vec4`), used for the material albedo;
`c0`..`c3` are the components `albedo[0]`..`albedo[3]`. -/
structure Vec4 where
  c0 : ℚ
  c1 : ℚ
  c2 : ℚ
  c3 : ℚ
deriving DecidableEq, Repr

/-- Componentwise vector addition. -/
def Vec3.add (a b : Vec3) : Vec3 := ⟨a.x + b.x, a.y + b.y, a.z + b.z⟩

/-- Componentwise vector subtraction. -/
def Vec3.sub (a b : Vec3) : Vec3 := ⟨a.x - b.x, a.y - b.y, a.z - b.z⟩

/-- Vector times scalar (`v * t` in the C++ code). -/
def Vec3.smul (a : Vec3) (t : ℚ) : Vec3 := ⟨a.x * t, a.y * t, a.z * t⟩

/-- Componentwise negation (`-v`). -/
def Vec3.neg (a : Vec3) : Vec3 := ⟨-a.x, -a.y, -a.z⟩

/-- Dot product (`u * v` in the C++ code). -/
def Vec3.dot (a b : Vec3) : ℚ := a.x * b.x + a.y * b.y + a.z * b.z

/-- Modelled from the spec: `geometry.h` is not part of the repository
sources; section 3 of the spec specifies the vector norm as the Euclidean
length.  The square root is taken through the oracle `sq`. -/
def Vec3.norm (sq : ℚ → ℚ) (a : Vec3) : ℚ := sq (a.dot a)

/-- Modelled from the spec: `geometry.h` is not part of the repository
sources; section 3 of the spec specifies `normalize` as scaling a vector
to unit length (undefined on the zero vector). -/
def Vec3.normalize (sq : ℚ → ℚ) (a : Vec3) : Vec3 := a.smul (a.norm sq)⁻¹

/-- Material: refractive index, four-term albedo, diffuse color and Phong
specular exponent (struct `Material` in the source). -/
structure Material where
  refractive_index : ℚ
  albedo : Vec4
  diffuse_color : Vec3
  specular_exponent : ℚ
deriving DecidableEq, Repr

/-- The default-constructed `Material` (member initializers in the source:
refractive index 1, albedo {1,0,0,0}, black diffuse, exponent 0). -/
def Material.init : Material := ⟨1, ⟨1, 0, 0, 0⟩, ⟨0, 0, 0⟩, 0⟩

/-- Point light source (struct `Light` in the source). -/
structure Light where
  position : Vec3
  intensity : ℚ
deriving DecidableEq, Repr

/-- Sphere primitive (struct `Sphere` in the source). -/
structure Sphere where
  center : Vec3
  radius : ℚ
  material : Material
deriving DecidableEq, Repr

/-- `Sphere::ray_intersect`: closed-form ray/sphere intersection.  Returns
`some t0` (the out-parameter `t0` on a `true` return) or `none` (a `false`
return; in that case the C++ out-parameter is dead).  `sq` is the
square-root oracle. -/
def ray_intersect (sq : ℚ → ℚ) (s : Sphere) (orig dir : Vec3) : Option ℚ :=
  let dist := s.center.sub orig
  let projToOrigin := dist.dot dir
  let d2 := dist.dot dist - projToOrigin * projToOrigin
  if s.radius * s.radius < d2 then none
  else
    let projToIntersections := sq (s.radius * s.radius - d2)
    let t0 := projToOrigin - projToIntersections
    let t1 := projToOrigin + projToIntersections
    let t0' := if t0 < 0 then t1 else t0
    if t0' < 0 then none else some t0'

/-- Truncation toward zero: the semantics of the C++ `int(...)` cast on an
in-range argument (floor for non-negative values, ceiling for negative
ones). -/
def cint (q : ℚ) : ℤ := if 0 ≤ q then ⌊q⌋ else ⌈q⌉

/-- The checkerboard diffuse color synthesized per plane hit:
`(int(.5*x+1000) + int(.5*z)) & 1 ? {1,1,1} : {1,.7,.3}`, then scaled
by 0.3.  The bitwise `& 1` test on a two's-complement int is parity,
i.e. Euclidean `% 2 = 1`. -/
def checkerColor (pt : Vec3) : Vec3 :=
  (if (cint (1/2 * pt.x + 1000) + cint (1/2 * pt.z)) % 2 = 1
   then (⟨1, 1, 1⟩ : Vec3) else ⟨1, 7/10, 3/10⟩).smul (3/10)

/-- `std::numeric_limits<float>::max()` as an exact rational,
`(2^24 - 1) * 2^104`. -/
def FLT_MAX : ℚ := (2 ^ 24 - 1) * 2 ^ 104

/-- The three by-reference out-parameters of `scene_intersect`: hit point,
surface normal and material. -/
structure HitState where
  hit : Vec3
  N : Vec3
  material : Material
deriving DecidableEq, Repr

/-- The state `cast_ray` passes in: locals `point`, `N` (modelled as zero
vectors; the code never reads them unless a hit overwrote them) and a
default-constructed `Material`. -/
def initHitState : HitState := ⟨⟨0, 0, 0⟩, ⟨0, 0, 0⟩, Material.init⟩

/-- The sphere loop of `scene_intersect`: fold over the sphere list
carrying `spheres_dist` and the out-parameter state; a sphere is recorded
when it intersects strictly closer than the best so far. -/
def sphereLoop (sq : ℚ → ℚ) (orig dir : Vec3) :
    List Sphere → ℚ → HitState → ℚ × HitState
  | [], d, st => (d, st)
  | s :: rest, d, st =>
    match ray_intersect sq s orig dir with
    | some dist_i =>
      if dist_i < d then
        let hit := orig.add (dir.smul dist_i)
        sphereLoop sq orig dir rest dist_i
          ⟨hit, (hit.sub s.center).normalize sq, s.material⟩
      else sphereLoop sq orig dir rest d st
    | none => sphereLoop sq orig dir rest d st

/-- `scene_intersect`: nearest sphere hit plus the bounded checkerboard
plane at y = -4.  Takes the incoming values of the out-parameters and
returns the boolean result together with their final values. -/
def scene_intersect (sq : ℚ → ℚ) (orig dir : Vec3) (spheres : List Sphere)
    (st : HitState) : Bool × HitState :=
  let sl := sphereLoop sq orig dir spheres FLT_MAX st
  let pl :=
    if 1/1000 < |dir.y| then
      let d := -(orig.y + 4) / dir.y
      let pt := orig.add (dir.smul d)
      if 0 < d ∧ |pt.x| < 10 ∧ 10 < pt.z ∧ pt.z < 30 ∧ d < sl.1 then
        (d, (⟨pt, ⟨0, 1, 0⟩,
              { sl.2.material with diffuse_color := checkerColor pt }⟩ : HitState))
      else (FLT_MAX, sl.2)
    else (FLT_MAX, sl.2)
  (decide (min sl.1 pl.1 < 1000), pl.2)

/-- `reflect`: mirror reflection `I - N*2*(I*N)`. -/
def reflect (I N : Vec3) : Vec3 := I.sub ((N.smul 2).smul (I.dot N))

/-- `refract`: Snell refraction.  `cosi = -clamp(I*N, -1, 1)`; a negative
`cosi` means the ray starts inside the medium, so recurse once with the
normal negated and the indices swapped; `k < 0` is total internal
reflection and yields the sentinel {1,0,0}. -/
def refract (sq : ℚ → ℚ) (I N : Vec3) (eta_t eta_i : ℚ) : Vec3 :=
  if h : -(max (-1) (min 1 (I.dot N))) < 0 then refract sq I N.neg eta_i eta_t
  else
    let cosi := -(max (-1) (min 1 (I.dot N)))
    let eta := eta_i / eta_t
    let k := 1 - eta * eta * (1 - cosi * cosi)
    if k < 0 then ⟨1, 0, 0⟩ else (I.smul eta).add (N.smul (eta * cosi - sq k))
termination_by (if -(max (-1) (min 1 (I.dot N))) < 0 then 1 else 0 : ℕ)
decreasing_by
  have hdn : I.dot N.neg = -(I.dot N) := by
    simp only [Vec3.dot, Vec3.neg]; ring
  rw [hdn]
  have hodd : max (-1 : ℚ) (min 1 (-(I.dot N))) = -(max (-1) (min 1 (I.dot N))) := by
    rcases le_total (I.dot N) (-1) with h1 | h1 <;> rcases le_total 1 (I.dot N) with h2 | h2 <;>
      simp [max_def, min_def] <;> split_ifs <;> linarith
  rw [hodd, neg_neg]
  rw [if_neg (by linarith), if_pos h]
  exact Nat.zero_lt_one

/-- The maximum recursion depth of `cast_ray` (the source's
`REFLECION_MAX_DEPTH`, spelling kept). -/
def REFLECION_MAX_DEPTH : ℕ := 4

/-- The constant background color {0.4, 0.85, 1}. -/
def background : Vec3 := ⟨2/5, 17/20, 1⟩

/-- The per-light loop of `cast_ray`: accumulates
`(diffuse_light_intensity, specular_light_intensity)` over the light
list, skipping (`continue`) a light whose shadow ray hits an occluder
strictly closer than the light itself. -/
def lightLoop (sq : ℚ → ℚ) (rp : ℚ → ℚ → ℚ) (spheres : List Sphere)
    (dir point N : Vec3) (material : Material) :
    List Light → ℚ × ℚ → ℚ × ℚ
  | [], acc => acc
  | l :: rest, acc =>
    let light_dir := (l.position.sub point).normalize sq
    let light_distance := (l.position.sub point).norm sq
    let shadow_orig :=
      if light_dir.dot N < 0 then point.sub (N.smul (1/1000))
      else point.add (N.smul (1/1000))
    let sres := scene_intersect sq shadow_orig light_dir spheres initHitState
    if sres.1 = true ∧ (sres.2.hit.sub shadow_orig).norm sq < light_distance then
      lightLoop sq rp spheres dir point N material rest acc
    else
      lightLoop sq rp spheres dir point N material rest
        (acc.1 + max 0 (light_dir.dot N) * l.intensity,
         acc.2 + rp (max 0 ((reflect light_dir N).dot dir)) material.specular_exponent
           * l.intensity)

/-- The body of `cast_ray` below the depth test, instrumented: intersect
the scene; on a hit perform the reflection and refraction recursions
(through the continuation `recur`, which stands for the call at
depth + 1) and the light loop, combining all four terms weighted by the
albedo; on a miss return the background.  The two counters added for the
resource claims count the evaluations that reach the shading stage and
the `scene_intersect` invocations performed (including shadow tests). -/
def castRayStep (sq : ℚ → ℚ) (rp : ℚ → ℚ → ℚ) (spheres : List Sphere)
    (lights : List Light) (orig dir : Vec3)
    (recur : Vec3 → Vec3 → Vec3 × ℕ × ℕ) : Vec3 × ℕ × ℕ :=
  let sres := scene_intersect sq orig dir spheres initHitState
  if sres.1 = true then
    let point := sres.2.hit
    let N := sres.2.N
    let material := sres.2.material
    let reflect_dir := reflect dir N
    let reflect_orig :=
      if reflect_dir.dot N < 0 then point.sub (N.smul (1/1000))
      else point.add (N.smul (1/1000))
    let rc := recur reflect_orig reflect_dir
    let refract_dir := (refract sq dir N material.refractive_index 1).normalize sq
    let refract_orig :=
      if refract_dir.dot N < 0 then point.sub (N.smul (1/1000))
      else point.add (N.smul (1/1000))
    let tc := recur refract_orig refract_dir
    let li := lightLoop sq rp spheres dir point N material lights (0, 0)
    (((((material.diffuse_color.smul li.1).smul material.albedo.c0).add
         (((⟨1, 1, 1⟩ : Vec3).smul li.2).smul material.albedo.c1)).add
        (rc.1.smul material.albedo.c2)).add
       (tc.1.smul material.albedo.c3),
     1 + rc.2.1 + tc.2.1,
     1 + lights.length + rc.2.2 + tc.2.2)
  else (background, 0, 1)

/-- `cast_ray`, instrumented: past the depth cutoff return the background
immediately (both counters 0); otherwise run the shading body with the
recursion at depth + 1. -/
def castRayAux (sq : ℚ → ℚ) (rp : ℚ → ℚ → ℚ) (spheres : List Sphere)
    (lights : List Light) (orig dir : Vec3) (depth : ℕ) : Vec3 × ℕ × ℕ :=
  if _h : REFLECION_MAX_DEPTH < depth then (background, 0, 0)
  else castRayStep sq rp spheres lights orig dir
    (fun o d => castRayAux sq rp spheres lights o d (depth + 1))
termination_by REFLECION_MAX_DEPTH + 1 - depth
decreasing_by
  simp only [REFLECION_MAX_DEPTH] at *; omega

/-- `cast_ray` proper: the color component of the instrumented function. -/
def cast_ray (sq : ℚ → ℚ) (rp : ℚ → ℚ → ℚ) (spheres : List Sphere)
    (lights : List Light) (orig dir : Vec3) (depth : ℕ) : Vec3 :=
  (castRayAux sq rp spheres lights orig dir depth).1

/-- The tone-mapping step of `render`: if the maximum channel exceeds 1,
scale the whole color by its reciprocal. -/
def toneMap (c : Vec3) : Vec3 :=
  let m := max c.x (max c.y c.z)
  if 1 < m then c.smul (1 / m) else c

/-- The quantization step of `render`: each emitted channel byte is
`(int)(255 * channel)` (C++ truncation toward zero). -/
def quantize (c : Vec3) : ℤ × ℤ × ℤ :=
  (cint (255 * c.x), cint (255 * c.y), cint (255 * c.z))

/-- A square-root oracle that is exact on the perfect squares occurring in
the concrete test scenes used by the witnesses. -/
def sqHat (q : ℚ) : ℚ :=
  if q = 1 then 1 else if q = 16 then 4 else if q = 25 then 5 else
    if q = 100 then 10 else 0

/-- A trivial pow oracle for the concrete test scenes (the specular term
is never inspected by the witnesses). -/
def rpHat (_b _e : ℚ) : ℚ := 0

/-- Claim C2: for a unit-direction ray and a sphere of positive radius,
`ray_intersect` reports a hit exactly when the squared center-to-line
distance `d2` is at most `radius²` (tangency, `d2 = radius²`, included)
and at least one of the two roots `proj ∓ sqrt(radius² - d2)` is
non-negative; the reported distance is the near root when that is
non-negative and otherwise the far root; and a ray starting inside the
sphere always reports the non-negative far root.  The square-root oracle
value `hc` on the discriminant is assumed non-negative and exact. -/
theorem ray_intersect_characterization
    (sq : ℚ → ℚ) (s : Sphere) (orig dir : Vec3) (proj d2 hc : ℚ)
    (hr : 0 < s.radius) (hunit : dir.dot dir = 1)
    (hproj : proj = (s.center.sub orig).dot dir)
    (hd2 : d2 = (s.center.sub orig).dot (s.center.sub orig) - proj * proj)
    (hhc : hc = sq (s.radius * s.radius - d2))
    (hc0 : 0 ≤ hc)
    (hcsq : d2 ≤ s.radius * s.radius → hc * hc = s.radius * s.radius - d2) :
    ((ray_intersect sq s orig dir).isSome = true ↔
        d2 ≤ s.radius * s.radius ∧ (0 ≤ proj - hc ∨ 0 ≤ proj + hc)) ∧
    (d2 ≤ s.radius * s.radius → 0 ≤ proj - hc →
        ray_intersect sq s orig dir = some (proj - hc)) ∧
    (d2 ≤ s.radius * s.radius → proj - hc < 0 → 0 ≤ proj + hc →
        ray_intersect sq s orig dir = some (proj + hc)) ∧
    ((s.center.sub orig).dot (s.center.sub orig) < s.radius * s.radius →
        ray_intersect sq s orig dir = some (proj + hc) ∧ 0 < proj + hc) := by
  have hri : ray_intersect sq s orig dir =
      if s.radius * s.radius < d2 then none
      else if (if proj - hc < 0 then proj + hc else proj - hc) < 0 then none
      else some (if proj - hc < 0 then proj + hc else proj - hc) := by
    simp only [ray_intersect]
    rw [← hproj, ← hd2, ← hhc]
  refine ⟨?_, ?_, ?_, ?_⟩
  · rw [hri]
    split_ifs with h1 h3 h2
    · simp only [Option.isSome_none, Bool.false_eq_true, false_iff]
      exact fun hcon => absurd hcon.1 (not_le.mpr h1)
    · simp only [Option.isSome_none, Bool.false_eq_true, false_iff]
      rintro ⟨-, h | h⟩ <;> linarith
    · simp only [Option.isSome_some, true_iff]
      exact ⟨not_lt.mp h1, Or.inr (not_lt.mp h2)⟩
    · simp only [Option.isSome_some, true_iff]
      exact ⟨not_lt.mp h1, Or.inl (not_lt.mp h3)⟩
  · intro hle ht0
    have h' : ¬(proj - hc < 0) := not_lt.mpr ht0
    rw [hri, if_neg (not_lt.mpr hle)]
    simp only [if_neg h']
  · intro hle ht0 ht1
    rw [hri, if_neg (not_lt.mpr hle)]
    simp only [if_pos ht0]
    rw [if_neg (not_lt.mpr ht1)]
  · intro hin
    have hproj2 : 0 ≤ proj * proj := mul_self_nonneg proj
    have hd2le : d2 < s.radius * s.radius := by
      rw [hd2]; nlinarith
    have hsq : hc * hc = s.radius * s.radius - d2 := hcsq (le_of_lt hd2le)
    have hprod : (proj - hc) * (proj + hc) < 0 := by nlinarith [hsq, hd2]
    have ht0 : proj - hc < 0 := by nlinarith
    have ht1 : 0 < proj + hc := by nlinarith
    refine ⟨?_, ht1⟩
    rw [hri, if_neg (not_lt.mpr (le_of_lt hd2le))]
    simp only [if_pos ht0]
    rw [if_neg (not_lt.mpr (le_of_lt ht1))]

/-- Witness for claim C2: a unit ray down +z against the sphere centered
at (0,0,5) with radius 1 hits at the near root 5 - 1 = 4. -/
theorem ray_intersect_characterization_witness :
    (0 : ℚ) ≤ 5 - 1 ∧
      ray_intersect sqHat ⟨⟨0, 0, 5⟩, 1, Material.init⟩ ⟨0, 0, 0⟩ ⟨0, 0, 1⟩ =
        some (5 - 1) := by
  have h := ray_intersect_characterization sqHat ⟨⟨0, 0, 5⟩, 1, Material.init⟩
    ⟨0, 0, 0⟩ ⟨0, 0, 1⟩ 5 0 1 (by norm_num) (by norm_num [Vec3.dot])
    (by norm_num [Vec3.sub, Vec3.dot]) (by norm_num [Vec3.sub, Vec3.dot])
    (by norm_num [sqHat]) (by norm_num) (fun _ => by norm_num [sqHat])
  exact ⟨by norm_num, h.2.1 (by norm_num) (by norm_num)⟩

/-- Clamping to [-1,1] commutes with negation. -/
theorem clamp_neg_eq (t : ℚ) :
    max (-1 : ℚ) (min 1 (-t)) = -(max (-1) (min 1 t)) := by
  rcases le_total t (-1) with h1 | h1 <;> rcases le_total 1 t with h2 | h2 <;>
    simp [max_def, min_def] <;> split_ifs <;> linarith

/-- Claim C5: when `cosi = -clamp(I*N, -1, 1)` is non-negative at entry,
`refract` returns the sentinel {1,0,0} exactly when
`k = 1 - (eta_i/eta_t)^2 * (1 - cosi^2)` is negative (total internal
reflection), and otherwise returns `I*eta + N*(eta*cosi - sqrt k)`. -/
theorem refract_characterization
    (sq : ℚ → ℚ) (I N : Vec3) (eta_t eta_i cosi eta k : ℚ)
    (hcosi : cosi = -(max (-1) (min 1 (I.dot N))))
    (heta : eta = eta_i / eta_t)
    (hk : k = 1 - eta * eta * (1 - cosi * cosi))
    (h0 : 0 ≤ cosi) :
    (k < 0 → refract sq I N eta_t eta_i = ⟨1, 0, 0⟩) ∧
    (0 ≤ k → refract sq I N eta_t eta_i =
        (I.smul eta).add (N.smul (eta * cosi - sq k))) := by
  rw [hcosi] at h0
  have hbody : refract sq I N eta_t eta_i =
      if k < 0 then ⟨1, 0, 0⟩ else (I.smul eta).add (N.smul (eta * cosi - sq k)) := by
    rw [refract, dif_neg (not_lt.mpr h0), ← hcosi, ← heta]
    dsimp only
    rw [← hk]
  constructor
  · intro hkneg
    rw [hbody, if_pos hkneg]
  · intro hknn
    rw [hbody, if_neg (not_lt.mpr hknn)]

/-- Witness for claim C5 at a total-internal-reflection input:
`I = (0,0,1)`, `N = (0,0,-1/2)` gives `cosi = 1/2 ≥ 0` and, with
`eta_i/eta_t = 2`, `k = -2 < 0`, so the sentinel {1,0,0} is returned. -/
theorem refract_characterization_witness :
    ((-2 : ℚ) < 0) ∧
      refract sqHat ⟨0, 0, 1⟩ ⟨0, 0, -1/2⟩ 1 2 = ⟨1, 0, 0⟩ := by
  have h := refract_characterization sqHat ⟨0, 0, 1⟩ ⟨0, 0, -1/2⟩ 1 2 (1/2) 2 (-2)
    (by norm_num [Vec3.dot]) (by norm_num) (by norm_num) (by norm_num)
  exact ⟨by norm_num, h.1 (by norm_num)⟩

/-- Claim C6: when `cosi = -clamp(I*N, -1, 1)` is negative (the ray starts
inside the medium), `refract` performs exactly one recursive call, with
the normal negated and the refraction indices swapped, and the inner
call's `cosi` is non-negative, so no further recursion can occur. -/
theorem refract_inside_swaps_once
    (sq : ℚ → ℚ) (I N : Vec3) (eta_t eta_i : ℚ)
    (h0 : -(max (-1) (min 1 (I.dot N))) < 0) :
    refract sq I N eta_t eta_i = refract sq I N.neg eta_i eta_t ∧
    0 ≤ -(max (-1) (min 1 (I.dot N.neg))) := by
  constructor
  · rw [refract, dif_pos h0]
  · have hdn : I.dot N.neg = -(I.dot N) := by
      simp only [Vec3.dot, Vec3.neg]; ring
    rw [hdn, clamp_neg_eq, neg_neg]
    linarith
/-- Witness for claim C6: `I = N = (0,0,1)` gives `cosi = -1 < 0`; the
call reduces to the swapped call on the negated normal, whose own `cosi`
is non-negative. -/
theorem refract_inside_swaps_once_witness :
    (-(max (-1 : ℚ) (min 1 (Vec3.dot ⟨0, 0, 1⟩ ⟨0, 0, 1⟩))) < 0) ∧
      refract sqHat ⟨0, 0, 1⟩ ⟨0, 0, 1⟩ 3 1 =
        refract sqHat ⟨0, 0, 1⟩ (Vec3.neg ⟨0, 0, 1⟩) 1 3 ∧
      0 ≤ -(max (-1 : ℚ) (min 1 (Vec3.dot ⟨0, 0, 1⟩ (Vec3.neg ⟨0, 0, 1⟩)))) := by
  have h := refract_inside_swaps_once sqHat ⟨0, 0, 1⟩ ⟨0, 0, 1⟩ 3 1
    (by norm_num [Vec3.dot])
  exact ⟨by norm_num [Vec3.dot], h.1, h.2⟩

/-- Truncation toward zero agrees with floor on non-negative arguments. -/
theorem cint_eq_floor (q : ℚ) (h : 0 ≤ q) : cint q = ⌊q⌋ := if_pos h

/-- Claim C7: for a framebuffer color with non-negative channels, the tone
map scales all three channels by the reciprocal of the maximum channel
exactly when that maximum exceeds 1 (so {2,1,0} becomes {1,1/2,0}), and
leaves the color unchanged when the maximum is at most 1; each emitted
byte is `floor(255 * channel)` of the tone-mapped channel, with no
rounding and no clamping of the low end. -/
theorem toneMap_quantize_characterization (c : Vec3)
    (hx : 0 ≤ c.x) (hy : 0 ≤ c.y) (hz : 0 ≤ c.z) :
    (1 < max c.x (max c.y c.z) →
        toneMap c = c.smul (1 / max c.x (max c.y c.z))) ∧
    (max c.x (max c.y c.z) ≤ 1 → toneMap c = c) ∧
    quantize (toneMap c) =
      (⌊255 * (toneMap c).x⌋, ⌊255 * (toneMap c).y⌋, ⌊255 * (toneMap c).z⌋) ∧
    toneMap ⟨2, 1, 0⟩ = ⟨1, 1/2, 0⟩ := by
  have hm : ∀ u : Vec3, 0 ≤ u.x → 0 ≤ u.y → 0 ≤ u.z →
      0 ≤ (toneMap u).x ∧ 0 ≤ (toneMap u).y ∧ 0 ≤ (toneMap u).z := by
    intro u ux uy uz
    unfold toneMap
    dsimp only
    split_ifs with h1
    · have hpos : (0 : ℚ) < max u.x (max u.y u.z) := lt_trans one_pos h1
      have hinv : 0 ≤ 1 / max u.x (max u.y u.z) := by positivity
      exact ⟨mul_nonneg ux hinv, mul_nonneg uy hinv, mul_nonneg uz hinv⟩
    · exact ⟨ux, uy, uz⟩
  refine ⟨?_, ?_, ?_, ?_⟩
  · intro h1
    unfold toneMap
    dsimp only
    rw [if_pos h1]
  · intro h1
    unfold toneMap
    dsimp only
    rw [if_neg (not_lt.mpr h1)]
  · obtain ⟨px, py, pz⟩ := hm c hx hy hz
    unfold quantize
    rw [cint_eq_floor _ (by positivity), cint_eq_floor _ (by positivity),
      cint_eq_floor _ (by positivity)]
  · unfold toneMap
    dsimp only
    norm_num [Vec3.smul]

/-- Witness for claim C7: the color {2,1,0} is tone-mapped to {1,1/2,0}
and quantized to the bytes (255, 127, 0). -/
theorem toneMap_quantize_characterization_witness :
    toneMap ⟨2, 1, 0⟩ = ⟨1, 1/2, 0⟩ ∧
      quantize (toneMap ⟨2, 1, 0⟩) = (255, 127, 0) := by
  have h := toneMap_quantize_characterization ⟨2, 1, 0⟩
    (by norm_num) (by norm_num) (by norm_num)
  refine ⟨h.2.2.2, ?_⟩
  rw [h.2.2.1, h.2.2.2]
  have h127 : (⌊(255 : ℚ) * (1/2)⌋ : ℤ) = 127 := by
    rw [Int.floor_eq_iff] <;> norm_num
  show (⌊(255 : ℚ) * 1⌋, ⌊(255 : ℚ) * (1/2)⌋, ⌊(255 : ℚ) * 0⌋) = (255, 127, 0)
  rw [h127]
  norm_num

/-- The sphere loop never increases the running nearest distance. -/
theorem sphereLoop_le (sq : ℚ → ℚ) (orig dir : Vec3) :
    ∀ (l : List Sphere) (d : ℚ) (st : HitState),
      (sphereLoop sq orig dir l d st).1 ≤ d := by
  intro l
  induction l with
  | nil => intro d st; simp [sphereLoop]
  | cons s rest ih =>
    intro d st
    simp only [sphereLoop]
    rcases hri : ray_intersect sq s orig dir with _ | t
    · exact ih d st
    · dsimp only
      split_ifs with hlt
      · exact le_trans (ih t _) (le_of_lt hlt)
      · exact ih d st

/-- Inside the plane's visibility window the C++ parity test
`(int(.5x+1000) + int(.5z)) & 1` agrees with the parity of
`floor(.5x) + floor(.5z)`. -/
theorem checkerColor_eq_floor (pt : Vec3) (hx : |pt.x| < 10) (hz : 10 < pt.z) :
    checkerColor pt =
      (if (⌊1/2 * pt.x⌋ + ⌊1/2 * pt.z⌋) % 2 = 1 then (⟨1, 1, 1⟩ : Vec3)
       else ⟨1, 7/10, 3/10⟩).smul (3/10) := by
  unfold checkerColor
  have hx' : -10 < pt.x := by
    rcases abs_lt.mp hx with ⟨h, _⟩; linarith
  have h1 : cint (1/2 * pt.x + 1000) = ⌊1/2 * pt.x⌋ + 1000 := by
    rw [cint_eq_floor _ (by linarith)]
    rw [show ((1000 : ℚ)) = ((1000 : ℤ) : ℚ) by norm_num, Int.floor_add_int]
  have h2 : cint (1/2 * pt.z) = ⌊1/2 * pt.z⌋ := cint_eq_floor _ (by linarith)
  rw [h1, h2]
  congr 1
  have hcond : ((⌊1/2 * pt.x⌋ + 1000 + ⌊1/2 * pt.z⌋) % 2 = 1) ↔
      ((⌊1/2 * pt.x⌋ + ⌊1/2 * pt.z⌋) % 2 = 1) := by omega
  exact if_congr hcond rfl rfl

/-- Claim C3: `scene_intersect` tests the checkerboard plane only when
`|dir.y| > 1e-3`; a plane intersection at parameter `d` is recorded only
when `d > 0`, the hit point satisfies `|x| < 10` and `10 < z < 30`, and
`d` beats the nearest sphere distance; and a recorded plane hit reports
normal {0,1,0} and a diffuse color alternating between two fixed shades,
each scaled by 0.3, selected by the parity of
`floor(0.5*x) + floor(0.5*z)`. -/
theorem scene_intersect_plane_characterization
    (sq : ℚ → ℚ) (orig dir : Vec3) (spheres : List Sphere) (st : HitState)
    (d : ℚ) (pt : Vec3) (sd : ℚ) (stl : HitState)
    (hd : d = -(orig.y + 4) / dir.y)
    (hpt : pt = orig.add (dir.smul d))
    (hsl : (sd, stl) = sphereLoop sq orig dir spheres FLT_MAX st) :
    (|dir.y| ≤ 1/1000 →
        scene_intersect sq orig dir spheres st = (decide (sd < 1000), stl)) ∧
    (1/1000 < |dir.y| → 0 < d → |pt.x| < 10 → 10 < pt.z → pt.z < 30 → d < sd →
        scene_intersect sq orig dir spheres st =
          (decide (d < 1000),
           ⟨pt, ⟨0, 1, 0⟩,
            { stl.material with diffuse_color :=
                (if (⌊1/2 * pt.x⌋ + ⌊1/2 * pt.z⌋) % 2 = 1 then (⟨1, 1, 1⟩ : Vec3)
                 else ⟨1, 7/10, 3/10⟩).smul (3/10) }⟩)) ∧
    (1/1000 < |dir.y| →
        ¬(0 < d ∧ |pt.x| < 10 ∧ 10 < pt.z ∧ pt.z < 30 ∧ d < sd) →
        scene_intersect sq orig dir spheres st = (decide (sd < 1000), stl)) := by
  have h1 : (sphereLoop sq orig dir spheres FLT_MAX st).1 = sd := by rw [← hsl]
  have h2 : (sphereLoop sq orig dir spheres FLT_MAX st).2 = stl := by rw [← hsl]
  have hle : sd ≤ FLT_MAX := by
    rw [← h1]; exact sphereLoop_le sq orig dir spheres FLT_MAX st
  refine ⟨?_, ?_, ?_⟩
  · intro hy
    unfold scene_intersect
    dsimp only
    rw [h1, h2, if_neg (not_lt.mpr hy), min_eq_left hle]
  · intro hy h0 hxw hz1 hz2 hlt
    unfold scene_intersect
    dsimp only
    rw [h1, h2, if_pos hy, ← hd, ← hpt,
      if_pos (⟨h0, hxw, hz1, hz2, hlt⟩ :
        0 < d ∧ |pt.x| < 10 ∧ 10 < pt.z ∧ pt.z < 30 ∧ d < sd),
      min_eq_right (le_of_lt hlt), checkerColor_eq_floor pt hxw hz1]
  · intro hy hnot
    unfold scene_intersect
    dsimp only
    rw [h1, h2, if_pos hy, ← hd, ← hpt, if_neg hnot, min_eq_left hle]

/-- Witness for claim C3: a ray with direction (0,-1,5) from the origin
meets the plane at d = 4, point (0,-4,20), inside the window; with no
spheres the plane wins and reports normal {0,1,0} and the dark shade
(parity of floor(0) + floor(10) is even). -/
theorem scene_intersect_plane_characterization_witness :
    ((1 : ℚ)/1000 < |(⟨0, -1, 5⟩ : Vec3).y|) ∧
      scene_intersect sqHat ⟨0, 0, 0⟩ ⟨0, -1, 5⟩ [] initHitState =
        (true, ⟨⟨0, -4, 20⟩, ⟨0, 1, 0⟩,
          { Material.init with diffuse_color := Vec3.smul ⟨1, 7/10, 3/10⟩ (3/10) }⟩) := by
  have h := scene_intersect_plane_characterization sqHat ⟨0, 0, 0⟩ ⟨0, -1, 5⟩ []
    initHitState 4 ⟨0, -4, 20⟩ FLT_MAX initHitState
    (by norm_num) (by norm_num [Vec3.add, Vec3.smul]) rfl
  have hb := h.2.1 (by norm_num) (by norm_num) (by norm_num) (by norm_num)
    (by norm_num) (by norm_num [FLT_MAX])
  refine ⟨by norm_num, ?_⟩
  rw [hb]
  have hfx : (⌊(1 : ℚ)/2 * (0 : ℚ)⌋ : ℤ) = 0 := by norm_num
  have hfz : (⌊(1 : ℚ)/2 * (20 : ℚ)⌋ : ℤ) = 10 := by
    rw [show ((1 : ℚ)/2 * 20) = ((10 : ℤ) : ℚ) by norm_num, Int.floor_intCast]
  show (decide ((4 : ℚ) < 1000),
      (⟨⟨0, -4, 20⟩, ⟨0, 1, 0⟩,
        { Material.init with diffuse_color :=
            (if (⌊(1 : ℚ)/2 * (0 : ℚ)⌋ + ⌊(1 : ℚ)/2 * (20 : ℚ)⌋) % 2 = 1
             then (⟨1, 1, 1⟩ : Vec3) else ⟨1, 7/10, 3/10⟩).smul (3/10) }⟩ : HitState)) =
    (true, ⟨⟨0, -4, 20⟩, ⟨0, 1, 0⟩,
      { Material.init with diffuse_color := Vec3.smul ⟨1, 7/10, 3/10⟩ (3/10) }⟩)
  rw [hfx, hfz]
  norm_num

/-- Claim C4: in the light loop of `cast_ray`, for each light: a shadow
ray is cast from the hit point offset by 1e-3 along the normal (sign
chosen by the side the light is on) toward the light; if it intersects
the scene at a point strictly closer than the light, that light
contributes nothing to either accumulated intensity; otherwise the loop
adds exactly `max(0, light_dir.N) * intensity` to the diffuse intensity
and `pow(max(0, reflect(light_dir,N).dir), specular_exponent) * intensity`
to the specular intensity. -/
theorem lightLoop_shadow_step
    (sq : ℚ → ℚ) (rp : ℚ → ℚ → ℚ) (spheres : List Sphere)
    (dir point N : Vec3) (material : Material) (l : Light) (rest : List Light)
    (acc : ℚ × ℚ) (light_dir shadow_orig : Vec3) (light_distance : ℚ)
    (hld : light_dir = (l.position.sub point).normalize sq)
    (hldist : light_distance = (l.position.sub point).norm sq)
    (hso : shadow_orig =
      if light_dir.dot N < 0 then point.sub (N.smul (1/1000))
      else point.add (N.smul (1/1000))) :
    (((scene_intersect sq shadow_orig light_dir spheres initHitState).1 = true ∧
        ((scene_intersect sq shadow_orig light_dir spheres initHitState).2.hit.sub
            shadow_orig).norm sq < light_distance) →
      lightLoop sq rp spheres dir point N material (l :: rest) acc =
        lightLoop sq rp spheres dir point N material rest acc) ∧
    (¬((scene_intersect sq shadow_orig light_dir spheres initHitState).1 = true ∧
        ((scene_intersect sq shadow_orig light_dir spheres initHitState).2.hit.sub
            shadow_orig).norm sq < light_distance) →
      lightLoop sq rp spheres dir point N material (l :: rest) acc =
        lightLoop sq rp spheres dir point N material rest
          (acc.1 + max 0 (light_dir.dot N) * l.intensity,
           acc.2 + rp (max 0 ((reflect light_dir N).dot dir))
             material.specular_exponent * l.intensity)) := by
  subst hld hldist hso
  constructor
  · intro hsh
    simp only [lightLoop]
    rw [if_pos hsh]
  · intro hsh
    simp only [lightLoop]
    rw [if_neg hsh]

/-- Witness for claim C4: hit point at the origin with normal (0,0,1), a
light at (0,0,10), and an occluding sphere at (0,0,5) with radius 1; the
shadow ray hits the occluder closer than the light, so the light list
contributes nothing to the accumulators. -/
theorem lightLoop_shadow_step_witness :
    ((scene_intersect sqHat ⟨0, 0, 1/1000⟩ ⟨0, 0, 1⟩
        [⟨⟨0, 0, 5⟩, 1, Material.init⟩] initHitState).1 = true ∧
      ((scene_intersect sqHat ⟨0, 0, 1/1000⟩ ⟨0, 0, 1⟩
          [⟨⟨0, 0, 5⟩, 1, Material.init⟩] initHitState).2.hit.sub
          ⟨0, 0, 1/1000⟩).norm sqHat < 10) ∧
    lightLoop sqHat rpHat [⟨⟨0, 0, 5⟩, 1, Material.init⟩] ⟨0, 0, 1⟩ ⟨0, 0, 0⟩
      ⟨0, 0, 1⟩ Material.init [⟨⟨0, 0, 10⟩, 1⟩] (0, 0) = (0, 0) := by
  have heval : scene_intersect sqHat ⟨0, 0, 1/1000⟩ ⟨0, 0, 1⟩
      [⟨⟨0, 0, 5⟩, 1, Material.init⟩] initHitState =
      (true, ⟨⟨0, 0, 4⟩, ⟨0, 0, -1⟩, Material.init⟩) := by
    norm_num [scene_intersect, sphereLoop, ray_intersect, Vec3.sub, Vec3.dot,
      Vec3.add, Vec3.smul, Vec3.normalize, Vec3.norm, sqHat, FLT_MAX, initHitState]
  have hcond : (scene_intersect sqHat ⟨0, 0, 1/1000⟩ ⟨0, 0, 1⟩
      [⟨⟨0, 0, 5⟩, 1, Material.init⟩] initHitState).1 = true ∧
      ((scene_intersect sqHat ⟨0, 0, 1/1000⟩ ⟨0, 0, 1⟩
          [⟨⟨0, 0, 5⟩, 1, Material.init⟩] initHitState).2.hit.sub
          ⟨0, 0, 1/1000⟩).norm sqHat < 10 := by
    rw [heval]
    norm_num [Vec3.sub, Vec3.norm, Vec3.dot, sqHat]
  have h := lightLoop_shadow_step sqHat rpHat [⟨⟨0, 0, 5⟩, 1, Material.init⟩]
    ⟨0, 0, 1⟩ ⟨0, 0, 0⟩ ⟨0, 0, 1⟩ Material.init ⟨⟨0, 0, 10⟩, 1⟩ [] (0, 0)
    ⟨0, 0, 1⟩ ⟨0, 0, 1/1000⟩ 10
    (by norm_num [Vec3.sub, Vec3.normalize, Vec3.norm, Vec3.dot, Vec3.smul, sqHat])
    (by norm_num [Vec3.sub, Vec3.norm, Vec3.dot, sqHat])
    (by norm_num [Vec3.dot, Vec3.add, Vec3.smul])
  exact ⟨hcond, by rw [h.1 hcond]; rfl⟩

/-- The shading body makes at most `1 + 2B` shading-stage evaluations
when the recursion makes at most `B`. -/
theorem castRayStep_count_le (sq : ℚ → ℚ) (rp : ℚ → ℚ → ℚ)
    (spheres : List Sphere) (lights : List Light) (orig dir : Vec3)
    (recur : Vec3 → Vec3 → Vec3 × ℕ × ℕ) (B : ℕ)
    (hB : ∀ o d : Vec3, (recur o d).2.1 ≤ B) :
    (castRayStep sq rp spheres lights orig dir recur).2.1 ≤ 1 + B + B := by
  unfold castRayStep
  dsimp only
  by_cases hhit : (scene_intersect sq orig dir spheres initHitState).1 = true
  · rw [if_pos hhit]
    exact Nat.add_le_add (Nat.add_le_add le_rfl (hB _ _)) (hB _ _)
  · rw [if_neg hhit]
    exact Nat.zero_le _

/-- The number of evaluations reaching the shading stage is at most
`2^(5-depth) - 1`. -/
theorem castRayAux_count_le (sq : ℚ → ℚ) (rp : ℚ → ℚ → ℚ)
    (spheres : List Sphere) (lights : List Light) :
    ∀ (k depth : ℕ), 5 - depth ≤ k → ∀ orig dir,
      (castRayAux sq rp spheres lights orig dir depth).2.1 ≤ 2 ^ (5 - depth) - 1 := by
  intro k
  induction k with
  | zero =>
    intro depth hk orig dir
    rw [castRayAux, dif_pos (by simp only [REFLECION_MAX_DEPTH]; omega)]
    exact Nat.zero_le _
  | succ k ih =>
    intro depth hk orig dir
    by_cases hdep : REFLECION_MAX_DEPTH < depth
    · rw [castRayAux, dif_pos hdep]
      exact Nat.zero_le _
    · have hdep4 : depth ≤ 4 := by
        simpa [REFLECION_MAX_DEPTH] using hdep
      rw [castRayAux, dif_neg hdep]
      have hB : ∀ o d : Vec3,
          (castRayAux sq rp spheres lights o d (depth + 1)).2.1 ≤
            2 ^ (4 - depth) - 1 := by
        intro o d
        have h := ih (depth + 1) (by omega) o d
        rwa [show 5 - (depth + 1) = 4 - depth by omega] at h
      refine le_trans (castRayStep_count_le sq rp spheres lights orig dir _ _ hB) ?_
      have hpow : 2 ^ (5 - depth) = 2 * 2 ^ (4 - depth) := by
        rw [show 5 - depth = (4 - depth) + 1 by omega, pow_succ]; ring
      have hn : 1 ≤ 2 ^ (4 - depth) := Nat.one_le_two_pow
      omega

set_option maxHeartbeats 2000000 in
/-- Claim C1: `cast_ray` is depth-bounded and total: at any depth > 4 it
returns the constant background color {0.4, 0.85, 1} immediately,
performing no scene intersection and reaching no shading stage (both
instrumentation counters are 0); on every hit at depth ≤ 4 it makes
exactly the two recursive calls (reflection and refraction) at depth + 1
regardless of the albedo weights; and a primary ray (depth 0) makes at
most `2^5 - 1` evaluations that reach the shading stage. -/
theorem cast_ray_depth_bounded :
    (∀ (sq : ℚ → ℚ) (rp : ℚ → ℚ → ℚ) (spheres : List Sphere)
        (lights : List Light) (orig dir : Vec3) (depth : ℕ), 4 < depth →
        castRayAux sq rp spheres lights orig dir depth = (background, 0, 0)) ∧
    (∀ (sq : ℚ → ℚ) (rp : ℚ → ℚ → ℚ) (spheres : List Sphere)
        (lights : List Light) (orig dir : Vec3) (depth : ℕ), depth ≤ 4 →
        (scene_intersect sq orig dir spheres initHitState).1 = true →
        castRayAux sq rp spheres lights orig dir depth =
          (let st := (scene_intersect sq orig dir spheres initHitState).2
           let reflect_dir := reflect dir st.N
           let reflect_orig :=
             if reflect_dir.dot st.N < 0 then st.hit.sub (st.N.smul (1/1000))
             else st.hit.add (st.N.smul (1/1000))
           let rc := castRayAux sq rp spheres lights reflect_orig reflect_dir (depth + 1)
           let refract_dir :=
             (refract sq dir st.N st.material.refractive_index 1).normalize sq
           let refract_orig :=
             if refract_dir.dot st.N < 0 then st.hit.sub (st.N.smul (1/1000))
             else st.hit.add (st.N.smul (1/1000))
           let tc := castRayAux sq rp spheres lights refract_orig refract_dir (depth + 1)
           let li := lightLoop sq rp spheres dir st.hit st.N st.material lights (0, 0)
           (((((st.material.diffuse_color.smul li.1).smul st.material.albedo.c0).add
                (((⟨1, 1, 1⟩ : Vec3).smul li.2).smul st.material.albedo.c1)).add
               (rc.1.smul st.material.albedo.c2)).add
              (tc.1.smul st.material.albedo.c3),
            1 + rc.2.1 + tc.2.1,
            1 + lights.length + rc.2.2 + tc.2.2))) ∧
    (∀ (sq : ℚ → ℚ) (rp : ℚ → ℚ → ℚ) (spheres : List Sphere)
        (lights : List Light) (orig dir : Vec3),
        (castRayAux sq rp spheres lights orig dir 0).2.1 ≤ 2 ^ 5 - 1) := by
  refine ⟨?_, ?_, ?_⟩
  · intro sq rp spheres lights orig dir depth hdep
    rw [castRayAux, dif_pos (by simp only [REFLECION_MAX_DEPTH]; omega)]
  · intro sq rp spheres lights orig dir depth hdep hhit
    rw [castRayAux, dif_neg (by simp only [REFLECION_MAX_DEPTH]; omega)]
    simp only [castRayStep]
    rw [if_pos hhit]
  · intro sq rp spheres lights orig dir
    exact castRayAux_count_le sq rp spheres lights 5 0 (by omega) orig dir

set_option maxHeartbeats 4000000 in
/-- Witness for claim C1: at depth 5 everything short-circuits to the
background with zero counters; against the single sphere at (0,0,5) the
primary ray hits and its shading-stage count decomposes into the two
depth-1 recursive calls; the depth-0 count is at most 31. -/
theorem cast_ray_depth_bounded_witness :
    castRayAux sqHat rpHat [] [] ⟨0, 0, 0⟩ ⟨0, 0, 1⟩ 5 = (background, 0, 0) ∧
    (scene_intersect sqHat ⟨0, 0, 0⟩ ⟨0, 0, 1⟩ [⟨⟨0, 0, 5⟩, 1, Material.init⟩]
        initHitState).1 = true ∧
    (castRayAux sqHat rpHat [⟨⟨0, 0, 5⟩, 1, Material.init⟩] [] ⟨0, 0, 0⟩
        ⟨0, 0, 1⟩ 0).2.1 =
      1 + (castRayAux sqHat rpHat [⟨⟨0, 0, 5⟩, 1, Material.init⟩] []
            ⟨0, 0, 3999/1000⟩ ⟨0, 0, -1⟩ 1).2.1
        + (castRayAux sqHat rpHat [⟨⟨0, 0, 5⟩, 1, Material.init⟩] []
            ⟨0, 0, 4001/1000⟩ ⟨0, 0, 1⟩ 1).2.1 ∧
    (castRayAux sqHat rpHat [⟨⟨0, 0, 5⟩, 1, Material.init⟩] [] ⟨0, 0, 0⟩
        ⟨0, 0, 1⟩ 0).2.1 ≤ 2 ^ 5 - 1 := by
  have heval : scene_intersect sqHat ⟨0, 0, 0⟩ ⟨0, 0, 1⟩
      [⟨⟨0, 0, 5⟩, 1, Material.init⟩] initHitState =
      (true, ⟨⟨0, 0, 4⟩, ⟨0, 0, -1⟩, Material.init⟩) := by
    norm_num [scene_intersect, sphereLoop, ray_intersect, Vec3.sub, Vec3.dot,
      Vec3.add, Vec3.smul, Vec3.normalize, Vec3.norm, sqHat, FLT_MAX, initHitState]
  have hrefr : refract sqHat ⟨0, 0, 1⟩ ⟨0, 0, -1⟩ 1 1 = ⟨0, 0, 1⟩ := by
    rw [refract, dif_neg (by norm_num [Vec3.dot])]
    norm_num [Vec3.dot, Vec3.smul, Vec3.add, sqHat]
  refine ⟨?_, ?_, ?_, ?_⟩
  · exact cast_ray_depth_bounded.1 sqHat rpHat [] [] ⟨0, 0, 0⟩ ⟨0, 0, 1⟩ 5 (by omega)
  · rw [heval]
  · have hb := cast_ray_depth_bounded.2.1 sqHat rpHat
      [⟨⟨0, 0, 5⟩, 1, Material.init⟩] [] ⟨0, 0, 0⟩ ⟨0, 0, 1⟩ 0 (by omega)
      (by rw [heval])
    rw [hb, heval]
    norm_num [reflect, Vec3.sub, Vec3.dot, Vec3.add, Vec3.smul, Vec3.normalize,
      Vec3.norm, sqHat, Material.init, hrefr]
  · exact cast_ray_depth_bounded.2.2 sqHat rpHat [⟨⟨0, 0, 5⟩, 1, Material.init⟩]
      [] ⟨0, 0, 0⟩ ⟨0, 0, 1⟩

/-- The distance component of the sphere loop is a fold of `min` over the
per-sphere hit distances. -/
theorem sphereLoop_dist_eq (sq : ℚ → ℚ) (orig dir : Vec3) :
    ∀ (l : List Sphere) (a : ℚ) (st : HitState),
      (sphereLoop sq orig dir l a st).1 =
        l.foldl (fun d s =>
          match ray_intersect sq s orig dir with
          | some t => min t d
          | none => d) a := by
  intro l
  induction l with
  | nil => intro a st; rfl
  | cons s rest ih =>
    intro a st
    simp only [sphereLoop, List.foldl_cons]
    rcases hri : ray_intersect sq s orig dir with _ | t <;> dsimp only
    · exact ih a st
    · split_ifs with hlt
      · rw [ih, min_eq_left (le_of_lt hlt)]
      · rw [ih, min_eq_right (not_lt.mp hlt)]

/-- Invariant of the sphere loop: either nothing was recorded and distance
and state come back unchanged, or the returned distance is a recorded
sphere's hit distance (strictly below the incoming one) and the state
holds exactly that sphere's hit point, normal and material. -/
theorem sphereLoop_spec (sq : ℚ → ℚ) (orig dir : Vec3) :
    ∀ (l : List Sphere) (a : ℚ) (st : HitState),
      sphereLoop sq orig dir l a st = (a, st) ∨
      ((sphereLoop sq orig dir l a st).1 < a ∧
        ∃ s ∈ l, ray_intersect sq s orig dir = some (sphereLoop sq orig dir l a st).1 ∧
          (sphereLoop sq orig dir l a st).2 =
            ⟨orig.add (dir.smul (sphereLoop sq orig dir l a st).1),
             ((orig.add (dir.smul (sphereLoop sq orig dir l a st).1)).sub
               s.center).normalize sq,
             s.material⟩) := by
  intro l
  induction l with
  | nil => intro a st; exact Or.inl rfl
  | cons s rest ih =>
    intro a st
    simp only [sphereLoop]
    rcases hri : ray_intersect sq s orig dir with _ | t <;> dsimp only
    · rcases ih a st with h | ⟨h1, s', hs', hray, hst⟩
      · exact Or.inl h
      · exact Or.inr ⟨h1, s', List.mem_cons_of_mem s hs', hray, hst⟩
    · split_ifs with hlt
      · rcases ih t ⟨orig.add (dir.smul t),
            ((orig.add (dir.smul t)).sub s.center).normalize sq, s.material⟩ with
          h | ⟨h1, s', hs', hray, hst⟩
        · rw [h]
          exact Or.inr ⟨hlt, s, List.mem_cons_self s rest, hri, rfl⟩
        · exact Or.inr ⟨lt_trans h1 hlt, s', List.mem_cons_of_mem s hs', hray, hst⟩
      · rcases ih a st with h | ⟨h1, s', hs', hray, hst⟩
        · exact Or.inl h
        · exact Or.inr ⟨h1, s', List.mem_cons_of_mem s hs', hray, hst⟩

/-- Permuting the sphere list leaves the nearest distance unchanged. -/
theorem sphereLoop_perm_dist (sq : ℚ → ℚ) (orig dir : Vec3) (st : HitState)
    (l1 l2 : List Sphere) (hp : l1.Perm l2) (a : ℚ) :
    (sphereLoop sq orig dir l1 a st).1 = (sphereLoop sq orig dir l2 a st).1 := by
  rw [sphereLoop_dist_eq, sphereLoop_dist_eq]
  refine hp.foldl_eq' (fun x _ y _ z => ?_) a
  rcases hx : ray_intersect sq x orig dir with _ | t <;>
    rcases hy : ray_intersect sq y orig dir with _ | u <;>
    simp [hx, hy, min_left_comm]

/-- Permuting the sphere list leaves the recorded hit point unchanged
(the hit point is determined by the nearest distance). -/
theorem sphereLoop_perm_hit (sq : ℚ → ℚ) (orig dir : Vec3) (st : HitState)
    (l1 l2 : List Sphere) (hp : l1.Perm l2) :
    (sphereLoop sq orig dir l1 FLT_MAX st).2.hit =
      (sphereLoop sq orig dir l2 FLT_MAX st).2.hit := by
  have hd := sphereLoop_perm_dist sq orig dir st l1 l2 hp FLT_MAX
  rcases sphereLoop_spec sq orig dir l1 FLT_MAX st with h1 | ⟨hlt1, s1, hm1, hr1, hst1⟩ <;>
    rcases sphereLoop_spec sq orig dir l2 FLT_MAX st with h2 | ⟨hlt2, s2, hm2, hr2, hst2⟩
  · rw [h1, h2]
  · rw [h1] at hd
    exact absurd (hd ▸ hlt2) (lt_irrefl _)
  · rw [h2] at hd
    exact absurd (hd.symm ▸ hlt1) (lt_irrefl _)
  · rw [hst1, hst2]
    dsimp only
    rw [hd]

/-- Claim C8 (amended): for every ray and every permutation of the sphere
list, `scene_intersect` returns the same boolean result, the same nearest
sphere distance, and the same hit point.  (The reported normal and
material are NOT permutation-invariant: the loop keeps a hit only when it
is strictly closer, so on a distance tie the sphere listed first wins —
see the counterexample.) -/
theorem scene_intersect_perm_invariance
    (sq : ℚ → ℚ) (orig dir : Vec3) (st : HitState) (l1 l2 : List Sphere)
    (hp : l1.Perm l2) :
    (sphereLoop sq orig dir l1 FLT_MAX st).1 =
      (sphereLoop sq orig dir l2 FLT_MAX st).1 ∧
    (scene_intersect sq orig dir l1 st).1 = (scene_intersect sq orig dir l2 st).1 ∧
    (scene_intersect sq orig dir l1 st).2.hit =
      (scene_intersect sq orig dir l2 st).2.hit := by
  have hd := sphereLoop_perm_dist sq orig dir st l1 l2 hp FLT_MAX
  have hh := sphereLoop_perm_hit sq orig dir st l1 l2 hp
  refine ⟨hd, ?_, ?_⟩
  · unfold scene_intersect
    dsimp only
    rw [hd]
    by_cases hy : 1/1000 < |dir.y|
    · rw [if_pos hy, if_pos hy]
      by_cases hc : 0 < -(orig.y + 4) / dir.y ∧
          |(orig.add (dir.smul (-(orig.y + 4) / dir.y))).x| < 10 ∧
          10 < (orig.add (dir.smul (-(orig.y + 4) / dir.y))).z ∧
          (orig.add (dir.smul (-(orig.y + 4) / dir.y))).z < 30 ∧
          -(orig.y + 4) / dir.y < (sphereLoop sq orig dir l2 FLT_MAX st).1
      · rw [if_pos hc, if_pos hc]
      · rw [if_neg hc, if_neg hc]
    · rw [if_neg hy, if_neg hy]
  · unfold scene_intersect
    dsimp only
    rw [hd]
    by_cases hy : 1/1000 < |dir.y|
    · rw [if_pos hy, if_pos hy]
      by_cases hc : 0 < -(orig.y + 4) / dir.y ∧
          |(orig.add (dir.smul (-(orig.y + 4) / dir.y))).x| < 10 ∧
          10 < (orig.add (dir.smul (-(orig.y + 4) / dir.y))).z ∧
          (orig.add (dir.smul (-(orig.y + 4) / dir.y))).z < 30 ∧
          -(orig.y + 4) / dir.y < (sphereLoop sq orig dir l2 FLT_MAX st).1
      · rw [if_pos hc, if_pos hc]
      · rw [if_neg hc, if_neg hc]
        exact hh
    · rw [if_neg hy, if_neg hy]
      exact hh

/-- Counterexample to claim C8 as stated: the spheres A (center (0,0,5),
radius 1, red) and B (center (3,0,8), radius 5, green) are both first hit
at distance 4 by the ray from the origin along +z; swapping their order
in the list is a permutation, yet the reported material (and normal)
changes, because the strict `<` comparison lets the earlier sphere win
the tie. -/
theorem scene_intersect_perm_counterexample :
    ([⟨⟨0, 0, 5⟩, 1, ⟨1, ⟨1, 0, 0, 0⟩, ⟨1, 0, 0⟩, 0⟩⟩,
      ⟨⟨3, 0, 8⟩, 5, ⟨1, ⟨1, 0, 0, 0⟩, ⟨0, 1, 0⟩, 0⟩⟩] : List Sphere).Perm
      [⟨⟨3, 0, 8⟩, 5, ⟨1, ⟨1, 0, 0, 0⟩, ⟨0, 1, 0⟩, 0⟩⟩,
       ⟨⟨0, 0, 5⟩, 1, ⟨1, ⟨1, 0, 0, 0⟩, ⟨1, 0, 0⟩, 0⟩⟩] ∧
    (scene_intersect sqHat ⟨0, 0, 0⟩ ⟨0, 0, 1⟩
        [⟨⟨0, 0, 5⟩, 1, ⟨1, ⟨1, 0, 0, 0⟩, ⟨1, 0, 0⟩, 0⟩⟩,
         ⟨⟨3, 0, 8⟩, 5, ⟨1, ⟨1, 0, 0, 0⟩, ⟨0, 1, 0⟩, 0⟩⟩] initHitState).2.material ≠
      (scene_intersect sqHat ⟨0, 0, 0⟩ ⟨0, 0, 1⟩
        [⟨⟨3, 0, 8⟩, 5, ⟨1, ⟨1, 0, 0, 0⟩, ⟨0, 1, 0⟩, 0⟩⟩,
         ⟨⟨0, 0, 5⟩, 1, ⟨1, ⟨1, 0, 0, 0⟩, ⟨1, 0, 0⟩, 0⟩⟩] initHitState).2.material := by
  constructor
  · exact List.Perm.swap _ _ []
  · have h1 : scene_intersect sqHat ⟨0, 0, 0⟩ ⟨0, 0, 1⟩
        [⟨⟨0, 0, 5⟩, 1, ⟨1, ⟨1, 0, 0, 0⟩, ⟨1, 0, 0⟩, 0⟩⟩,
         ⟨⟨3, 0, 8⟩, 5, ⟨1, ⟨1, 0, 0, 0⟩, ⟨0, 1, 0⟩, 0⟩⟩] initHitState =
        (true, ⟨⟨0, 0, 4⟩, ⟨0, 0, -1⟩, ⟨1, ⟨1, 0, 0, 0⟩, ⟨1, 0, 0⟩, 0⟩⟩) := by
      norm_num [scene_intersect, sphereLoop, ray_intersect, Vec3.sub, Vec3.dot,
        Vec3.add, Vec3.smul, Vec3.normalize, Vec3.norm, sqHat, FLT_MAX, initHitState]
    have h2 : scene_intersect sqHat ⟨0, 0, 0⟩ ⟨0, 0, 1⟩
        [⟨⟨3, 0, 8⟩, 5, ⟨1, ⟨1, 0, 0, 0⟩, ⟨0, 1, 0⟩, 0⟩⟩,
         ⟨⟨0, 0, 5⟩, 1, ⟨1, ⟨1, 0, 0, 0⟩, ⟨1, 0, 0⟩, 0⟩⟩] initHitState =
        (true, ⟨⟨0, 0, 4⟩, ⟨-3/5, 0, -4/5⟩, ⟨1, ⟨1, 0, 0, 0⟩, ⟨0, 1, 0⟩, 0⟩⟩) := by
      norm_num [scene_intersect, sphereLoop, ray_intersect, Vec3.sub, Vec3.dot,
        Vec3.add, Vec3.smul, Vec3.normalize, Vec3.norm, sqHat, FLT_MAX, initHitState]
    rw [h1, h2]
    simp

/-- Witness for claim C8 (amended) at the tie scene: the boolean result
and the hit point agree after swapping the two spheres. -/
theorem scene_intersect_perm_invariance_witness :
    ([⟨⟨0, 0, 5⟩, 1, ⟨1, ⟨1, 0, 0, 0⟩, ⟨1, 0, 0⟩, 0⟩⟩,
      ⟨⟨3, 0, 8⟩, 5, ⟨1, ⟨1, 0, 0, 0⟩, ⟨0, 1, 0⟩, 0⟩⟩] : List Sphere).Perm
      [⟨⟨3, 0, 8⟩, 5, ⟨1, ⟨1, 0, 0, 0⟩, ⟨0, 1, 0⟩, 0⟩⟩,
       ⟨⟨0, 0, 5⟩, 1, ⟨1, ⟨1, 0, 0, 0⟩, ⟨1, 0, 0⟩, 0⟩⟩] ∧
    (scene_intersect sqHat ⟨0, 0, 0⟩ ⟨0, 0, 1⟩
        [⟨⟨0, 0, 5⟩, 1, ⟨1, ⟨1, 0, 0, 0⟩, ⟨1, 0, 0⟩, 0⟩⟩,
         ⟨⟨3, 0, 8⟩, 5, ⟨1, ⟨1, 0, 0, 0⟩, ⟨0, 1, 0⟩, 0⟩⟩] initHitState).1 =
      (scene_intersect sqHat ⟨0, 0, 0⟩ ⟨0, 0, 1⟩
        [⟨⟨3, 0, 8⟩, 5, ⟨1, ⟨1, 0, 0, 0⟩, ⟨0, 1, 0⟩, 0⟩⟩,
         ⟨⟨0, 0, 5⟩, 1, ⟨1, ⟨1, 0, 0, 0⟩, ⟨1, 0, 0⟩, 0⟩⟩] initHitState).1 ∧
    (scene_intersect sqHat ⟨0, 0, 0⟩ ⟨0, 0, 1⟩
        [⟨⟨0, 0, 5⟩, 1, ⟨1, ⟨1, 0, 0, 0⟩, ⟨1, 0, 0⟩, 0⟩⟩,
         ⟨⟨3, 0, 8⟩, 5, ⟨1, ⟨1, 0, 0, 0⟩, ⟨0, 1, 0⟩, 0⟩⟩] initHitState).2.hit =
      (scene_intersect sqHat ⟨0, 0, 0⟩ ⟨0, 0, 1⟩
        [⟨⟨3, 0, 8⟩, 5, ⟨1, ⟨1, 0, 0, 0⟩, ⟨0, 1, 0⟩, 0⟩⟩,
         ⟨⟨0, 0, 5⟩, 1, ⟨1, ⟨1, 0, 0, 0⟩, ⟨1, 0, 0⟩, 0⟩⟩] initHitState).2.hit := by
  have hp : ([⟨⟨0, 0, 5⟩, 1, ⟨1, ⟨1, 0, 0, 0⟩, ⟨1, 0, 0⟩, 0⟩⟩,
      ⟨⟨3, 0, 8⟩, 5, ⟨1, ⟨1, 0, 0, 0⟩, ⟨0, 1, 0⟩, 0⟩⟩] : List Sphere).Perm
      [⟨⟨3, 0, 8⟩, 5, ⟨1, ⟨1, 0, 0, 0⟩, ⟨0, 1, 0⟩, 0⟩⟩,
       ⟨⟨0, 0, 5⟩, 1, ⟨1, ⟨1, 0, 0, 0⟩, ⟨1, 0, 0⟩, 0⟩⟩] := List.Perm.swap _ _ []
  have h := scene_intersect_perm_invariance sqHat ⟨0, 0, 0⟩ ⟨0, 0, 1⟩ initHitState
    _ _ hp
  exact ⟨hp, h.2.1, h.2.2⟩

/-- Claim C9: when the checkerboard plane wins the intersection,
`scene_intersect` overwrites only the `diffuse_color` field of the
material out-parameter; `refractive_index`, `albedo` and
`specular_exponent` keep whatever the out-parameter held after the sphere
loop — in particular the values of a sphere recorded farther along the
same ray. -/
theorem scene_intersect_plane_keeps_material
    (sq : ℚ → ℚ) (orig dir : Vec3) (spheres : List Sphere) (st : HitState)
    (d : ℚ) (pt : Vec3) (sd : ℚ) (stl : HitState)
    (hd : d = -(orig.y + 4) / dir.y)
    (hpt : pt = orig.add (dir.smul d))
    (hsl : (sd, stl) = sphereLoop sq orig dir spheres FLT_MAX st)
    (hy : 1/1000 < |dir.y|) (h0 : 0 < d) (hxw : |pt.x| < 10)
    (hz1 : 10 < pt.z) (hz2 : pt.z < 30) (hlt : d < sd) :
    (scene_intersect sq orig dir spheres st).2.material.refractive_index =
      stl.material.refractive_index ∧
    (scene_intersect sq orig dir spheres st).2.material.albedo =
      stl.material.albedo ∧
    (scene_intersect sq orig dir spheres st).2.material.specular_exponent =
      stl.material.specular_exponent ∧
    (scene_intersect sq orig dir spheres st).2.material.diffuse_color =
      checkerColor pt := by
  have h1 : (sphereLoop sq orig dir spheres FLT_MAX st).1 = sd := by rw [← hsl]
  have h2 : (sphereLoop sq orig dir spheres FLT_MAX st).2 = stl := by rw [← hsl]
  have heq : (scene_intersect sq orig dir spheres st).2 =
      ⟨pt, ⟨0, 1, 0⟩, { stl.material with diffuse_color := checkerColor pt }⟩ := by
    unfold scene_intersect
    dsimp only
    rw [h1, h2, if_pos hy, ← hd, ← hpt,
      if_pos (⟨h0, hxw, hz1, hz2, hlt⟩ :
        0 < d ∧ |pt.x| < 10 ∧ 10 < pt.z ∧ pt.z < 30 ∧ d < sd)]
  rw [heq]
  exact ⟨rfl, rfl, rfl, rfl⟩

/-- Witness for claim C9: the ray (0,-7/25,24/25) from the origin records
the sphere at (0,-28/5,96/5) (distance 19, distinctive material) and then
the plane wins at d = 100/7 < 19; the reported material keeps the
sphere's refractive index 7, albedo (1,2,3,4) and exponent 9, with only
the diffuse color replaced by the checkerboard shade. -/
theorem scene_intersect_plane_keeps_material_witness :
    (100/7 : ℚ) < 19 ∧
    (scene_intersect sqHat ⟨0, 0, 0⟩ ⟨0, -7/25, 24/25⟩
        [⟨⟨0, -28/5, 96/5⟩, 1, ⟨7, ⟨1, 2, 3, 4⟩, ⟨5, 5, 5⟩, 9⟩⟩]
        initHitState).2.material.refractive_index = 7 ∧
    (scene_intersect sqHat ⟨0, 0, 0⟩ ⟨0, -7/25, 24/25⟩
        [⟨⟨0, -28/5, 96/5⟩, 1, ⟨7, ⟨1, 2, 3, 4⟩, ⟨5, 5, 5⟩, 9⟩⟩]
        initHitState).2.material.albedo = ⟨1, 2, 3, 4⟩ ∧
    (scene_intersect sqHat ⟨0, 0, 0⟩ ⟨0, -7/25, 24/25⟩
        [⟨⟨0, -28/5, 96/5⟩, 1, ⟨7, ⟨1, 2, 3, 4⟩, ⟨5, 5, 5⟩, 9⟩⟩]
        initHitState).2.material.specular_exponent = 9 ∧
    (scene_intersect sqHat ⟨0, 0, 0⟩ ⟨0, -7/25, 24/25⟩
        [⟨⟨0, -28/5, 96/5⟩, 1, ⟨7, ⟨1, 2, 3, 4⟩, ⟨5, 5, 5⟩, 9⟩⟩]
        initHitState).2.material.diffuse_color =
      checkerColor ⟨0, -4, 96/7⟩ := by
  have hsl : ((19 : ℚ),
      (⟨⟨0, -19*7/25, 19*24/25⟩,
        ⟨0, 7/25, -24/25⟩, ⟨7, ⟨1, 2, 3, 4⟩, ⟨5, 5, 5⟩, 9⟩⟩ : HitState)) =
      sphereLoop sqHat ⟨0, 0, 0⟩ ⟨0, -7/25, 24/25⟩
        [⟨⟨0, -28/5, 96/5⟩, 1, ⟨7, ⟨1, 2, 3, 4⟩, ⟨5, 5, 5⟩, 9⟩⟩] FLT_MAX
        initHitState := by
    norm_num [sphereLoop, ray_intersect, Vec3.sub, Vec3.dot, Vec3.add, Vec3.smul,
      Vec3.normalize, Vec3.norm, sqHat, FLT_MAX, initHitState]
  have h := scene_intersect_plane_keeps_material sqHat ⟨0, 0, 0⟩ ⟨0, -7/25, 24/25⟩
    [⟨⟨0, -28/5, 96/5⟩, 1, ⟨7, ⟨1, 2, 3, 4⟩, ⟨5, 5, 5⟩, 9⟩⟩] initHitState
    (100/7) ⟨0, -4, 96/7⟩ 19
    ⟨⟨0, -19*7/25, 19*24/25⟩, ⟨0, 7/25, -24/25⟩, ⟨7, ⟨1, 2, 3, 4⟩, ⟨5, 5, 5⟩, 9⟩⟩
    (by norm_num) (by norm_num [Vec3.add, Vec3.smul]) hsl
    (by rw [lt_abs]; right; norm_num) (by norm_num) (by norm_num) (by norm_num)
    (by norm_num) (by norm_num)
  exact ⟨by norm_num, h.1, h.2.1, h.2.2.1, h.2.2.2⟩

/-- Claim C10: `scene_intersect` can mutate its out-parameters even when
it reports no hit: if the nearest sphere is recorded at a distance of at
least 1000 (but below the FLT_MAX sentinel) and the plane test does not
fire, the function returns false while the out-parameters carry that
recorded sphere's hit point, normal and material. -/
theorem scene_intersect_no_hit_mutates
    (sq : ℚ → ℚ) (orig dir : Vec3) (spheres : List Sphere) (st : HitState)
    (sd : ℚ) (stl : HitState)
    (hsl : (sd, stl) = sphereLoop sq orig dir spheres FLT_MAX st)
    (hge : 1000 ≤ sd) (hfm : sd < FLT_MAX)
    (hplane : ¬(1/1000 < |dir.y|) ∨
      ¬(0 < -(orig.y + 4) / dir.y ∧
        |(orig.add (dir.smul (-(orig.y + 4) / dir.y))).x| < 10 ∧
        10 < (orig.add (dir.smul (-(orig.y + 4) / dir.y))).z ∧
        (orig.add (dir.smul (-(orig.y + 4) / dir.y))).z < 30 ∧
        -(orig.y + 4) / dir.y < sd)) :
    (scene_intersect sq orig dir spheres st).1 = false ∧
    (scene_intersect sq orig dir spheres st).2 = stl ∧
    ∃ s ∈ spheres, ray_intersect sq s orig dir = some sd ∧
      stl = ⟨orig.add (dir.smul sd),
             ((orig.add (dir.smul sd)).sub s.center).normalize sq,
             s.material⟩ := by
  have h1 : (sphereLoop sq orig dir spheres FLT_MAX st).1 = sd := by rw [← hsl]
  have h2 : (sphereLoop sq orig dir spheres FLT_MAX st).2 = stl := by rw [← hsl]
  have hres : scene_intersect sq orig dir spheres st = (decide (sd < 1000), stl) := by
    unfold scene_intersect
    dsimp only
    rw [h1, h2]
    rcases hplane with hy | hc
    · rw [if_neg hy, min_eq_left (le_of_lt hfm)]
    · by_cases hy : 1/1000 < |dir.y|
      · rw [if_pos hy, if_neg hc, min_eq_left (le_of_lt hfm)]
      · rw [if_neg hy, min_eq_left (le_of_lt hfm)]
  refine ⟨by rw [hres]; simp [not_lt.mpr hge], by rw [hres], ?_⟩
  rcases sphereLoop_spec sq orig dir spheres FLT_MAX st with h | ⟨hlt, s, hm, hray, hst⟩
  · rw [h] at h1
    dsimp only at h1
    exact absurd (h1 ▸ hfm) (lt_irrefl _)
  · rw [h1] at hray hst
    rw [h2] at hst
    exact ⟨s, hm, hray, hst⟩

/-- Witness for claim C10: the ray along +z from the origin meets the
sphere at (0,0,2000) at distance 1999 ≥ 1000; `scene_intersect` returns
false, yet the out-parameters carry the sphere's hit point (0,0,1999),
normal (0,0,-1) and material. -/
theorem scene_intersect_no_hit_mutates_witness :
    (1000 : ℚ) ≤ 1999 ∧
    (scene_intersect sqHat ⟨0, 0, 0⟩ ⟨0, 0, 1⟩
        [⟨⟨0, 0, 2000⟩, 1, ⟨2, ⟨0, 0, 0, 0⟩, ⟨1, 1, 0⟩, 3⟩⟩]
        initHitState).1 = false ∧
    (scene_intersect sqHat ⟨0, 0, 0⟩ ⟨0, 0, 1⟩
        [⟨⟨0, 0, 2000⟩, 1, ⟨2, ⟨0, 0, 0, 0⟩, ⟨1, 1, 0⟩, 3⟩⟩]
        initHitState).2 =
      ⟨⟨0, 0, 1999⟩, ⟨0, 0, -1⟩, ⟨2, ⟨0, 0, 0, 0⟩, ⟨1, 1, 0⟩, 3⟩⟩ := by
  have hsl : ((1999 : ℚ),
      (⟨⟨0, 0, 1999⟩, ⟨0, 0, -1⟩, ⟨2, ⟨0, 0, 0, 0⟩, ⟨1, 1, 0⟩, 3⟩⟩ : HitState)) =
      sphereLoop sqHat ⟨0, 0, 0⟩ ⟨0, 0, 1⟩
        [⟨⟨0, 0, 2000⟩, 1, ⟨2, ⟨0, 0, 0, 0⟩, ⟨1, 1, 0⟩, 3⟩⟩] FLT_MAX
        initHitState := by
    norm_num [sphereLoop, ray_intersect, Vec3.sub, Vec3.dot, Vec3.add, Vec3.smul,
      Vec3.normalize, Vec3.norm, sqHat, FLT_MAX, initHitState]
  have h := scene_intersect_no_hit_mutates sqHat ⟨0, 0, 0⟩ ⟨0, 0, 1⟩
    [⟨⟨0, 0, 2000⟩, 1, ⟨2, ⟨0, 0, 0, 0⟩, ⟨1, 1, 0⟩, 3⟩⟩] initHitState 1999
    ⟨⟨0, 0, 1999⟩, ⟨0, 0, -1⟩, ⟨2, ⟨0, 0, 0, 0⟩, ⟨1, 1, 0⟩, 3⟩⟩ hsl
    (by norm_num) (by norm_num [FLT_MAX]) (Or.inl (by norm_num))
  exact ⟨by norm_num, h.1, h.2.1⟩

end RT
